import Mathlib

/-!
Shallow embedding of the realtime-telemetry core of the komari-theme-commander
dashboard: the uptime/merge utilities (`src/lib/uptime-utils.ts`), the API and
status-polling service (`src/services/api.ts`), the entity-registry and status
reconciler hook (`src/hooks/useNodes.ts`), the sparkline cache
(`src/hooks/useRecentStats.ts`) and the incremental fetch sizing of
`src/components/UptimeView.tsx`.  Machine numbers are modelled as `Int`
(timestamps in milliseconds, counters) and percentages as `ℚ`; `Date.now()`
and `new Date().toISOString()` are impure inputs and are passed explicitly as
`now : Int` / `nowIso : String` parameters.  Timestamp strings are kept as
`String` and parsed through an explicit `parse : String → Int` parameter,
mirroring `new Date(rec.time).getTime()`.
-/

namespace Commander

/-- Ceiling division on integers, mirroring JavaScript
`Math.ceil(a / b)` for a positive divisor `b` (float division followed by
ceiling, which on exact integer inputs is the mathematical ceiling). -/
def ceilDiv (a b : Int) : Int := -(Int.ediv (-a) b)

/-! ### uptime-utils (`src/lib/uptime-utils.ts`) -/

/-- Status of one display slot, from `type SlotStatus`. -/
inductive SlotStatus where
  | online
  | offline
  | unknown
deriving DecidableEq, Repr

/-- One display slot, from `interface UptimeSlot` (field names `start`/`end`). -/
structure UptimeSlot where
  start : Int
  «end» : Int
  status : SlotStatus
deriving DecidableEq, Repr

/-- Result of `computeUptime`, from `interface UptimeResult`. -/
structure UptimeResult where
  slots : List UptimeSlot
  uptimePercent : ℚ
  onlineSlots : Nat
  offlineSlots : Nat
  totalSlots : Nat
deriving DecidableEq, Repr

/-- A load-history record, from `interface LoadRecord`: a timestamp string
plus further dynamic fields, which we model as a single integer payload so
that two records with the same timestamp can still differ. -/
structure LoadRecord where
  time : String
  value : Int
deriving DecidableEq, Repr

/-- Slot width in hours for a display range, from `slotHoursForRange`. -/
def slotHoursForRange (rangeHours : Int) : Int :=
  if rangeHours ≤ 24 then 1
  else if rangeHours ≤ 168 then 6
  else 24

/-- Indices of slots containing at least one in-window record: the
`occupiedSlots` set built by the first loop of `computeUptime`. -/
def uptimeOccupied (parse : String → Int) (now rangeStart slotMs slotCount : Int)
    (records : List LoadRecord) : List Nat :=
  records.filterMap (fun rec =>
    let t := parse rec.time
    if t < rangeStart ∨ now < t then none
    else
      let idx := Int.ediv (t - rangeStart) slotMs
      if 0 ≤ idx ∧ idx < slotCount then some idx.toNat else none)

/-- One iteration of the slot-building loop of `computeUptime`: appends the
slot for index `i` and bumps the online/offline counters. -/
def uptimeStep (rangeStart slotMs now : Int) (occupiedSlots : List Nat)
    (acc : List UptimeSlot × Nat × Nat) (i : Nat) : List UptimeSlot × Nat × Nat :=
  let start := rangeStart + (i : Int) * slotMs
  let finish := min (start + slotMs) now
  if now < start then
    (acc.1 ++ [⟨start, finish, SlotStatus.unknown⟩], acc.2.1, acc.2.2)
  else if occupiedSlots.contains i then
    (acc.1 ++ [⟨start, finish, SlotStatus.online⟩], acc.2.1 + 1, acc.2.2)
  else
    (acc.1 ++ [⟨start, finish, SlotStatus.offline⟩], acc.2.1, acc.2.2 + 1)

/-- `computeUptime(records, rangeHours)` from `src/lib/uptime-utils.ts`, with
`Date.now()` passed explicitly as `now` and timestamp parsing as `parse`. -/
def computeUptime (parse : String → Int) (now : Int) (records : List LoadRecord)
    (rangeHours : Int) : UptimeResult :=
  let rangeMs := rangeHours * 3600000
  let rangeStart := now - rangeMs
  let slotMs := slotHoursForRange rangeHours * 3600000
  let slotCount := ceilDiv rangeMs slotMs
  let occupiedSlots := uptimeOccupied parse now rangeStart slotMs slotCount records
  let built := (List.range slotCount.toNat).foldl
    (uptimeStep rangeStart slotMs now occupiedSlots) ([], 0, 0)
  let total := built.2.1 + built.2.2
  let uptimePercent : ℚ := if 0 < total then ((built.2.1 : ℚ) / (total : ℚ)) * 100 else 0
  { slots := built.1
    uptimePercent := uptimePercent
    onlineSlots := built.2.1
    offlineSlots := built.2.2
    totalSlots := total }

/-- The `seen` set of timestamp strings after one of the two loops of
`mergeRecords` has run over a list of records. -/
def recordSeen : List LoadRecord → List String → List String
  | [], seen => seen
  | r :: rs, seen =>
    if r.time ∈ seen then recordSeen rs seen else recordSeen rs (r.time :: seen)

/-- First-occurrence deduplication by timestamp string against a `seen` set;
used to characterise the two loops of `mergeRecords`. -/
def dedupByTime : List LoadRecord → List String → List LoadRecord
  | [], _ => []
  | r :: rs, seen =>
    if r.time ∈ seen then dedupByTime rs seen
    else r :: dedupByTime rs (r.time :: seen)

/-- One loop of `mergeRecords`: walk `records`, skip timestamps already in
`seen`, mark each fresh timestamp as seen and push the record onto `merged`
when it is not older than `cutoff`. -/
def addRecords (parse : String → Int) (cutoff : Int) :
    List LoadRecord → List String → List LoadRecord → List String × List LoadRecord
  | [], seen, merged => (seen, merged)
  | r :: rs, seen, merged =>
    if r.time ∈ seen then addRecords parse cutoff rs seen merged
    else if cutoff ≤ parse r.time then
      addRecords parse cutoff rs (r.time :: seen) (merged ++ [r])
    else
      addRecords parse cutoff rs (r.time :: seen) merged

/-- `mergeRecords(oldRecords, newRecords, rangeHours)` from
`src/lib/uptime-utils.ts`: new records are processed first (they win on a
timestamp collision), then old records, sharing one `seen` set; records whose
parsed time is below `cutoff = now - rangeHours * 3600000` are dropped. -/
def mergeRecords (parse : String → Int) (now : Int)
    (oldRecords newRecords : List LoadRecord) (rangeHours : Int) : List LoadRecord :=
  let cutoff := now - rangeHours * 3600000
  let first := addRecords parse cutoff newRecords [] []
  (addRecords parse cutoff oldRecords first.1 first.2).2

/-! ### Data model (`src/services/api.ts`) -/

/-- CPU sub-record of `NodeStats`. -/
structure CpuStat where
  usage : Int
deriving DecidableEq, Repr

/-- Memory-style used/total sub-record of `NodeStats` (ram/swap/disk). -/
structure MemStat where
  total : Int
  used : Int
deriving DecidableEq, Repr

/-- Network sub-record of `NodeStats`. -/
structure NetStat where
  up : Int
  down : Int
  totalUp : Int
  totalDown : Int
deriving DecidableEq, Repr

/-- Load-average sub-record of `NodeStats`. -/
structure LoadStat where
  load1 : Int
  load5 : Int
  load15 : Int
deriving DecidableEq, Repr

/-- Connection-count sub-record of `NodeStats`. -/
structure ConnStat where
  tcp : Int
  udp : Int
deriving DecidableEq, Repr

/-- Normalized per-node status record, from `interface NodeStats`. -/
structure NodeStats where
  cpu : CpuStat
  ram : MemStat
  swap : MemStat
  disk : MemStat
  network : NetStat
  load : LoadStat
  uptime : Int
  process : Int
  connections : ConnStat
  message : String
  updated_at : String
deriving DecidableEq, Repr

/-- Descriptive node record, from `interface NodeData`.  The Lean-side
defaults only shorten concrete test values; every field is present. -/
structure NodeData where
  uuid : String := ""
  name : String := ""
  cpu_name : String := ""
  virtualization : String := ""
  arch : String := ""
  cpu_cores : Int := 0
  os : String := ""
  gpu_name : String := ""
  region : String := ""
  mem_total : Int := 0
  swap_total : Int := 0
  disk_total : Int := 0
  weight : Int := 0
  price : Int := 0
  billing_cycle : Int := 0
  currency : String := ""
  expired_at : String := ""
  group : String := ""
  tags : String := ""
  created_at : String := ""
  updated_at : String := ""
  kernel_version : Option String := none
  hidden : Option Bool := none
  auto_renewal : Option Bool := none
  traffic_limit : Option Int := none
  traffic_limit_type : Option String := none
  public_remark : Option String := none
  ipv4 : Option String := none
  ipv6 : Option String := none
  remark : Option String := none
deriving DecidableEq, Repr

/-- The `'online' | 'offline'` status literal of `NodeWithStatus`. -/
inductive NodeStatus where
  | online
  | offline
deriving DecidableEq, Repr

/-- A node together with its reconciled status, from
`interface NodeWithStatus extends NodeData`. -/
structure NodeWithStatus extends NodeData where
  status : NodeStatus
  stats : Option NodeStats := none
deriving DecidableEq, Repr

/-! ### Status Reconciler (`src/hooks/useNodes.ts`) -/

/-- A raw status record as delivered in the websocket payload `data` map:
every field may be absent (`undefined` modelled as `none`). -/
structure RawStats where
  cpu_usage : Option Int := none
  ram_total : Option Int := none
  ram_used : Option Int := none
  swap_total : Option Int := none
  swap_used : Option Int := none
  disk_total : Option Int := none
  disk_used : Option Int := none
  net_up : Option Int := none
  net_down : Option Int := none
  net_totalUp : Option Int := none
  net_totalDown : Option Int := none
  load1 : Option Int := none
  load5 : Option Int := none
  load15 : Option Int := none
  uptime : Option Int := none
  process : Option Int := none
  conn_tcp : Option Int := none
  conn_udp : Option Int := none
  message : Option String := none
  updated_at : Option String := none
deriving DecidableEq, Repr

/-- JavaScript `s || fallback` on an optional string: the empty string is
falsy, so it also selects the fallback. -/
def strOr (o : Option String) (fallback : String) : String :=
  match o with
  | some s => if s = "" then fallback else s
  | none => fallback

/-- The `newStats` normalization inside `handleWebSocketData`: every missing
numeric field defaults to 0 (`x || 0`), `message` to `''`, `updated_at` to the
current ISO time string `nowIso`. -/
def normalizeRawStats (nowIso : String) (raw : RawStats) : NodeStats :=
  { cpu := ⟨raw.cpu_usage.getD 0⟩
    ram := ⟨raw.ram_total.getD 0, raw.ram_used.getD 0⟩
    swap := ⟨raw.swap_total.getD 0, raw.swap_used.getD 0⟩
    disk := ⟨raw.disk_total.getD 0, raw.disk_used.getD 0⟩
    network := ⟨raw.net_up.getD 0, raw.net_down.getD 0,
                raw.net_totalUp.getD 0, raw.net_totalDown.getD 0⟩
    load := ⟨raw.load1.getD 0, raw.load5.getD 0, raw.load15.getD 0⟩
    uptime := raw.uptime.getD 0
    process := raw.process.getD 0
    connections := ⟨raw.conn_tcp.getD 0, raw.conn_udp.getD 0⟩
    message := raw.message.getD ""
    updated_at := strOr raw.updated_at nowIso }

/-- `statsEqual(a, b)` from `src/hooks/useNodes.ts`: shallow field-by-field
comparison of two possibly-absent stats objects.  Note that `message` is not
among the compared fields, exactly as in the source. -/
def statsEqual (a b : Option NodeStats) : Bool :=
  match a, b with
  | none, none => true
  | some x, some y =>
    (x.cpu.usage == y.cpu.usage) &&
    (x.ram.used == y.ram.used) &&
    (x.ram.total == y.ram.total) &&
    (x.swap.used == y.swap.used) &&
    (x.swap.total == y.swap.total) &&
    (x.disk.used == y.disk.used) &&
    (x.disk.total == y.disk.total) &&
    (x.network.up == y.network.up) &&
    (x.network.down == y.network.down) &&
    (x.network.totalUp == y.network.totalUp) &&
    (x.network.totalDown == y.network.totalDown) &&
    (x.load.load1 == y.load.load1) &&
    (x.load.load5 == y.load.load5) &&
    (x.load.load15 == y.load.load15) &&
    (x.uptime == y.uptime) &&
    (x.process == y.process) &&
    (x.connections.tcp == y.connections.tcp) &&
    (x.connections.udp == y.connections.udp) &&
    (x.updated_at == y.updated_at)
  | _, _ => false

/-- Lookup `data.data[uuid]` in the payload's status map. -/
def dataLookup (data : List (String × RawStats)) (uuid : String) : Option RawStats :=
  (data.find? (fun p => p.1 == uuid)).map (fun p => p.2)

/-- The per-node body of the `prevNodes.map` inside `handleWebSocketData`:
returns the (possibly reused) node object together with the flag saying
whether a new object had to be created (the node's contribution to
`changed`). -/
def reconcileNode (nowIso : String) (online : List String)
    (data : List (String × RawStats)) (node : NodeWithStatus) :
    NodeWithStatus × Bool :=
  let isOnline := online.contains node.uuid
  let newStatus := if isOnline then NodeStatus.online else NodeStatus.offline
  let newStats := (dataLookup data node.uuid).map (normalizeRawStats nowIso)
  if node.status = newStatus ∧ statsEqual node.stats newStats = true then
    (node, false)
  else
    ({ node with status := newStatus, stats := newStats }, true)

/-- `handleWebSocketData` from `src/hooks/useNodes.ts`, for a payload that
passes the `data.online && data.data` guard: maps `reconcileNode` over the
previous snapshot and publishes the new array only when at least one node
changed (otherwise the previous snapshot reference is kept).  Returns the
published snapshot together with the `changed` flag. -/
def handleWebSocketData (nowIso : String) (prev : List NodeWithStatus)
    (online : List String) (data : List (String × RawStats)) :
    List NodeWithStatus × Bool :=
  let results := prev.map (reconcileNode nowIso online data)
  let nextNodes := results.map (fun r => r.1)
  let changed := results.any (fun r => r.2)
  (if changed then nextNodes else prev, changed)

/-! ### Entity Registry load (`ApiService.getNodes` + `fetchNodes`) -/

/-- `ApiService.getNodes`: the RPC2 call may reject (`Except.error`) or
resolve with `null`/a node map; the surrounding `try/catch` turns a rejection
into an empty list and `if (!result) return []` does the same for `null`.
The adaptation `Object.entries(result).map(adaptNodeData)` is modelled by
taking the already-adapted list as the successful value. -/
def apiGetNodes (remote : Except String (Option (List NodeData))) : List NodeData :=
  match remote with
  | Except.error _ => []
  | Except.ok none => []
  | Except.ok (some nodes) => nodes

/-- State of the `useNodes` registry hook: the node list, the loading flag
and the error message state. -/
structure RegistryState where
  nodes : List NodeWithStatus
  loading : Bool
  error : Option String
deriving DecidableEq, Repr

/-- The body of `fetchNodes` parameterized by the outcome of
`apiService.getNodes()`: on a resolved list every node is entered with status
`'offline'` and the error state stays `null`; if `getNodes` itself rejected,
the `catch` branch would keep the node list and set the error message. -/
def fetchNodesWith (st : RegistryState) (result : Except String (List NodeData)) :
    RegistryState :=
  match result with
  | Except.ok nodeData =>
    { nodes := nodeData.map (fun n =>
        { toNodeData := n, status := NodeStatus.offline, stats := none })
      loading := false
      error := none }
  | Except.error e =>
    { nodes := st.nodes, loading := false, error := some e }

/-- `fetchNodes` from `src/hooks/useNodes.ts` composed with
`ApiService.getNodes`: since `getNodes` catches every rejection of the
underlying RPC2 call and resolves with `[]`, the hook's `catch` branch is
unreachable for remote failures. -/
def fetchNodes (st : RegistryState) (remote : Except String (Option (List NodeData))) :
    RegistryState :=
  fetchNodesWith st (Except.ok (apiGetNodes remote))

/-! ### WebSocketService polling (`src/services/api.ts`) -/

/-- A raw `RPC2NodeStatus` entry of the `common:getNodesLatestStatus`
response (flat fields, each possibly absent). -/
structure RPC2NodeStatus where
  online : Bool := false
  cpu : Option Int := none
  ram : Option Int := none
  ram_total : Option Int := none
  swap : Option Int := none
  swap_total : Option Int := none
  disk : Option Int := none
  disk_total : Option Int := none
  net_in : Option Int := none
  net_out : Option Int := none
  net_total_up : Option Int := none
  net_total_down : Option Int := none
  load : Option Int := none
  load5 : Option Int := none
  load15 : Option Int := none
  uptime : Option Int := none
  process : Option Int := none
  connections : Option Int := none
  connections_udp : Option Int := none
  message : Option String := none
  time : Option String := none
deriving DecidableEq, Repr

/-- `adaptNodeStatus` from `src/services/api.ts`: flat RPC2 status → nested
`NodeStats`, defaulting every missing numeric field to 0, `message` to `''`
and `time` to the current ISO string. -/
def adaptNodeStatus (nowIso : String) (status : RPC2NodeStatus) : NodeStats :=
  { cpu := ⟨status.cpu.getD 0⟩
    ram := ⟨status.ram_total.getD 0, status.ram.getD 0⟩
    swap := ⟨status.swap_total.getD 0, status.swap.getD 0⟩
    disk := ⟨status.disk_total.getD 0, status.disk.getD 0⟩
    network := ⟨status.net_in.getD 0, status.net_out.getD 0,
                status.net_total_up.getD 0, status.net_total_down.getD 0⟩
    load := ⟨status.load.getD 0, status.load5.getD 0, status.load15.getD 0⟩
    uptime := status.uptime.getD 0
    process := status.process.getD 0
    connections := ⟨status.connections.getD 0, status.connections_udp.getD 0⟩
    message := status.message.getD ""
    updated_at := strOr status.time nowIso }

/-- `WebSocketService.send`: only the literal `'get'` message triggers
`fetchLatestStatus`, which issues the `common:getNodesLatestStatus` RPC.
The result lists the remote methods invoked. -/
def wsSend (data : String) : List String :=
  if data = "get" then ["common:getNodesLatestStatus"] else []

/-- The 2-second interval callback installed by `useNodes`: it sends `'get'`
only when `wsService.getOnlineNodes()` is non-empty.  The result lists the
remote methods invoked on this tick. -/
def intervalTick (onlineNodes : List String) : List String :=
  if onlineNodes.length > 0 then wsSend "get" else []

/-! ### Sparkline cache (`src/hooks/useRecentStats.ts`) -/

/-- Lookup in the sparkline map (JavaScript `Map.get`), modelled on an
association list. -/
def mapFind (m : List (String × List Int)) (k : String) : Option (List Int) :=
  (m.find? (fun p => p.1 == k)).map (fun p => p.2)

/-- Insertion into the sparkline map (JavaScript `Map.set`): replace the
binding when the key is present, append it otherwise. -/
def mapSet (m : List (String × List Int)) (k : String) (v : List Int) :
    List (String × List Int) :=
  if m.any (fun p => p.1 == k) then
    m.map (fun p => if p.1 == k then (k, v) else p)
  else m ++ [(k, v)]

/-- Extraction of the CPU series from one per-node fetch in `fetchAll`: a
rejected fetch is caught and yields the empty series. -/
def cpuSeriesOf (outcome : Except Unit (List NodeStats)) : List Int :=
  match outcome with
  | Except.error _ => []
  | Except.ok stats => stats.map (fun s => s.cpu.usage)

/-- The `setSparklineMap` updater of one batch in `fetchAll`: each fetched
series overwrites the cache entry only when it has at least 2 samples
(`data.length >= 2`). -/
def applyBatch (prev : List (String × List Int))
    (results : List (String × List Int)) : List (String × List Int) :=
  results.foldl (fun m r => if 2 ≤ r.2.length then mapSet m r.1 r.2 else m) prev

/-! ### Incremental fetch sizing (`src/components/UptimeView.tsx`) -/

/-- Per-node cache entry of the module-level incremental cache. -/
structure NodeCache where
  records : List LoadRecord
  result : UptimeResult
  fetchedAt : Int
deriving DecidableEq, Repr

/-- The module-level incremental cache: per-node entries plus the single
`rangeHours` value the cache was built for. -/
structure IncrementalCache where
  nodes : List (String × NodeCache)
  rangeHours : Int
deriving DecidableEq, Repr

/-- The `if (!_cache || _cache.rangeHours !== rangeHours)` reset at the top of
`doFetch`: an absent cache or a range mismatch starts a fresh empty cache for
the requested range. -/
def scopedCache (cache : Option IncrementalCache) (rangeHours : Int) : IncrementalCache :=
  match cache with
  | some c => if c.rangeHours = rangeHours then c else { nodes := [], rangeHours := rangeHours }
  | none => { nodes := [], rangeHours := rangeHours }

/-- `_cache.nodes.get(uuid)` on the scoped cache. -/
def cacheLookup (c : IncrementalCache) (uuid : String) : Option NodeCache :=
  (c.nodes.find? (fun p => p.1 == uuid)).map (fun p => p.2)

/-- The fetch-window sizing of `LazyNodeRow.doFetch`: with a cached entry that
is fresh (younger than 30 minutes) and no forced refresh, only
`Math.ceil(deltaMs / 3600000) + 1` hours are requested; otherwise the full
`rangeHours` window is requested. -/
def doFetchHours (now : Int) (cache : Option IncrementalCache) (uuid : String)
    (rangeHours : Int) (isForceRefresh : Bool) : Int :=
  let c := scopedCache cache rangeHours
  match cacheLookup c uuid with
  | some cached =>
    if isForceRefresh = false ∧ now - cached.fetchedAt < 30 * 60000 then
      ceilDiv (now - cached.fetchedAt) 3600000 + 1
    else rangeHours
  | none => rangeHours

/-! ### Concrete test data for witnesses and counterexamples -/

/-- Concrete timestamp parser used by witnesses: maps the test timestamp
strings to their epoch milliseconds. -/
def testParse : String → Int := fun s =>
  if s = "h0" then 0
  else if s = "h1" then 3600000
  else if s = "h5" then 18000000
  else if s = "T1" then 0
  else if s = "T2" then 3600000
  else if s = "T3" then 7200000
  else 0

/-- Records at hours 0, 1 and 5 after the window start (window start = 0,
now = hour 24 = 86400000 ms). -/
def uptimeRecords : List LoadRecord := [⟨"h0", 0⟩, ⟨"h1", 0⟩, ⟨"h5", 0⟩]

/-- A sample registered node for registry counterexamples. -/
def sampleNode : NodeWithStatus :=
  { toNodeData := { uuid := "a", name := "Node A" }
    status := NodeStatus.offline
    stats := none }

/-- A registry state holding one node and no error. -/
def sampleRegistry : RegistryState :=
  { nodes := [sampleNode], loading := false, error := none }

/-- A status payload for node `a` carrying only a cpu usage (in particular no
`updated_at`), as in spec §8 test 1. -/
def cpuOnlyData : List (String × RawStats) := [("a", { cpu_usage := some 10 })]

/-- A status payload for node `a` whose record carries a non-empty
`updated_at` value, as the polling service always produces. -/
def goodData : List (String × RawStats) :=
  [("a", { cpu_usage := some 10, updated_at := some "2024-01-01T00:00:00Z" })]

/-- Node `a` in the online state with no stats, as published after a tick
with an empty data map. -/
def wsSampleOnline : NodeWithStatus :=
  { toNodeData := { uuid := "a", name := "Node A" }
    status := NodeStatus.online
    stats := none }

/-- A fresh cache entry for the incremental-fetch witness. -/
def sampleNodeCache : NodeCache :=
  { records := [], result := ⟨[], 0, 0, 0, 0⟩, fetchedAt := 0 }

/-- A module cache holding one entry for node `u` at range 24. -/
def sampleCache : Option IncrementalCache :=
  some { nodes := [("u", sampleNodeCache)], rangeHours := 24 }

/-! ### Helper lemmas -/

/-- The code's integer ceiling division agrees with the mathematical ceiling
of the rational quotient, for a natural divisor. -/
theorem ceilDiv_eq_ceil (a : Int) (d : Nat) :
    ceilDiv a (d : Int) = ⌈(a : ℚ) / (d : ℚ)⌉ := by
  rw [ceilDiv, show (Int.ediv (-a) (d : Int)) = (-a) / (d : Int) from rfl]
  rw [← Rat.floor_intCast_div_natCast (-a) d]
  rw [← Int.ceil_neg]
  congr 1
  push_cast
  ring

/-- The `uptimePercent` field is the guarded percentage of `onlineSlots` over
`totalSlots` (definitional unfolding of the record construction). -/
theorem computeUptime_uptimePercent (parse : String → Int) (now : Int)
    (records : List LoadRecord) (rangeHours : Int) :
    (computeUptime parse now records rangeHours).uptimePercent =
      if 0 < (computeUptime parse now records rangeHours).totalSlots then
        ((computeUptime parse now records rangeHours).onlineSlots : ℚ) /
          ((computeUptime parse now records rangeHours).totalSlots : ℚ) * 100
      else 0 := rfl

/-- `totalSlots` is the sum of the online and offline counters. -/
theorem computeUptime_totalSlots (parse : String → Int) (now : Int)
    (records : List LoadRecord) (rangeHours : Int) :
    (computeUptime parse now records rangeHours).totalSlots =
      (computeUptime parse now records rangeHours).onlineSlots +
        (computeUptime parse now records rangeHours).offlineSlots := rfl

/-- With no occupied slot, the slot-building loop never bumps the online
counter. -/
theorem foldl_uptimeStep_nil_online (rangeStart slotMs now : Int) :
    ∀ (l : List Nat) (acc : List UptimeSlot × Nat × Nat),
      (l.foldl (uptimeStep rangeStart slotMs now []) acc).2.1 = acc.2.1 := by
  intro l
  induction l with
  | nil => intro acc; rfl
  | cons i rest ih =>
    intro acc
    rw [List.foldl_cons, ih]
    unfold uptimeStep
    split
    next h => simp at h
    next => dsimp only; split <;> rfl

/-- An empty record list produces zero online slots. -/
theorem computeUptime_nil_onlineSlots (parse : String → Int) (now : Int)
    (rangeHours : Int) :
    (computeUptime parse now [] rangeHours).onlineSlots = 0 := by
  unfold computeUptime
  simp only [uptimeOccupied, List.filterMap_nil]
  exact foldl_uptimeStep_nil_online _ _ _ _ _

/-- The guarded percentage is never negative. -/
theorem guardedPct_nonneg (onl total : Nat) :
    0 ≤ (if 0 < total then (onl : ℚ) / (total : ℚ) * 100 else 0) := by
  split
  · positivity
  · norm_num

/-- The guarded percentage never exceeds 100 when the numerator is bounded by
the denominator. -/
theorem guardedPct_le_100 (onl total : Nat) (h : onl ≤ total) :
    (if 0 < total then (onl : ℚ) / (total : ℚ) * 100 else 0) ≤ 100 := by
  split
  next ht =>
    have ht' : (0 : ℚ) < total := by exact_mod_cast ht
    have h' : (onl : ℚ) ≤ total := by exact_mod_cast h
    rw [div_mul_eq_mul_div, div_le_iff ht']
    nlinarith
  next => norm_num

/-- `ceilDiv` by the hour-in-milliseconds constant is the rational ceiling. -/
theorem ceilDiv_3600000 (a : Int) :
    ceilDiv a 3600000 = ⌈(a : ℚ) / (3600000 : ℚ)⌉ := by
  have h := ceilDiv_eq_ceil a 3600000
  exact_mod_cast h

/-! ### Claim theorems -/

/-- C1, counterexample: with one registered node and a rejecting remote
getNodes call, the registry node list is replaced by the empty list (instead
of being left untouched) and the error state stays null (instead of becoming
non-null), so the claimed failure contract is false at this input. -/
theorem fetchNodes_failure_claim_false :
    ¬ ((fetchNodes sampleRegistry (Except.error "network error")).nodes =
          sampleRegistry.nodes ∧
       (fetchNodes sampleRegistry (Except.error "network error")).error ≠ none) := by
  decide

/-- C1, amended: when the underlying remote getNodes call rejects,
ApiService.getNodes resolves with the empty list, so fetchNodes replaces the
registry with the empty node list and surfaces no error: the error state
remains null. -/
theorem fetchNodes_failure_amended (st : RegistryState) (e : String) :
    (fetchNodes st (Except.error e)).nodes = [] ∧
      (fetchNodes st (Except.error e)).error = none :=
  ⟨rfl, rfl⟩

/-- C2, counterexample: for records at hours 0, 1 and 5 after window start,
now at hour 24 and rangeHours = 24, the computed uptimePercent is 12.5, not
4/24×100 ≈ 16.7 as the claim states. -/
theorem computeUptime_bucketing_claim_false :
    (computeUptime testParse 86400000 uptimeRecords 24).uptimePercent ≠
      4 / 24 * 100 := by
  rw [computeUptime_uptimePercent]
  rw [show (computeUptime testParse 86400000 uptimeRecords 24).totalSlots = 24 from by decide]
  rw [show (computeUptime testParse 86400000 uptimeRecords 24).onlineSlots = 3 from by decide]
  norm_num

/-- C2, amended: slots 0, 1 and 5 are online, the other 21 slots are offline
(none unknown), and onlineSlots = 3, so uptimePercent = 3/24×100 = 12.5. -/
theorem computeUptime_bucketing_example :
    (computeUptime testParse 86400000 uptimeRecords 24).slots.map (fun s => s.status) =
        [SlotStatus.online, SlotStatus.online, SlotStatus.offline, SlotStatus.offline,
         SlotStatus.offline, SlotStatus.online] ++ List.replicate 18 SlotStatus.offline ∧
      (computeUptime testParse 86400000 uptimeRecords 24).onlineSlots = 3 ∧
      (computeUptime testParse 86400000 uptimeRecords 24).offlineSlots = 21 ∧
      (computeUptime testParse 86400000 uptimeRecords 24).uptimePercent = 25 / 2 := by
  refine ⟨by decide, by decide, by decide, ?_⟩
  rw [computeUptime_uptimePercent]
  rw [show (computeUptime testParse 86400000 uptimeRecords 24).totalSlots = 24 from by decide]
  rw [show (computeUptime testParse 86400000 uptimeRecords 24).onlineSlots = 3 from by decide]
  norm_num

/-- C9: when the currently-online set is empty, the 2-second interval
callback issues no remote call at all (in particular it never invokes
common:getNodesLatestStatus). -/
theorem intervalTick_empty_no_poll (onlineNodes : List String)
    (h : onlineNodes.length = 0) : intervalTick onlineNodes = [] := by
  simp [intervalTick, h]

/-- C9 witness at the empty online set. -/
theorem intervalTick_empty_no_poll_witness :
    ([] : List String).length = 0 ∧ intervalTick [] = [] :=
  ⟨rfl, intervalTick_empty_no_poll [] rfl⟩

/-- C10: computeUptime is total and well-formed: uptimePercent always lies in
[0, 100]; when onlineSlots + offlineSlots = 0 the division is not performed
and the result is 0; and an empty record list yields 0. -/
theorem computeUptime_wellFormed (parse : String → Int) (now : Int)
    (records : List LoadRecord) (rangeHours : Int) (h : 0 < rangeHours) :
    0 ≤ (computeUptime parse now records rangeHours).uptimePercent ∧
      (computeUptime parse now records rangeHours).uptimePercent ≤ 100 ∧
      ((computeUptime parse now records rangeHours).onlineSlots +
          (computeUptime parse now records rangeHours).offlineSlots = 0 →
        (computeUptime parse now records rangeHours).uptimePercent = 0) ∧
      (records = [] →
        (computeUptime parse now records rangeHours).uptimePercent = 0) := by
  refine ⟨?_, ?_, ?_, ?_⟩
  · rw [computeUptime_uptimePercent]
    exact guardedPct_nonneg _ _
  · rw [computeUptime_uptimePercent]
    refine guardedPct_le_100 _ _ ?_
    rw [computeUptime_totalSlots]
    exact Nat.le_add_right _ _
  · intro h0
    rw [computeUptime_uptimePercent, computeUptime_totalSlots, h0]
    norm_num
  · intro h0
    subst h0
    rw [computeUptime_uptimePercent, computeUptime_nil_onlineSlots]
    split <;> norm_num

/-- C10 witness at empty records and the 24-hour range. -/
theorem computeUptime_wellFormed_witness :
    (0 : Int) < 24 ∧
      0 ≤ (computeUptime testParse 86400000 [] 24).uptimePercent :=
  ⟨by decide, (computeUptime_wellFormed testParse 86400000 [] 24 (by decide)).1⟩

/-- C7: the fetch-window sizing of LazyNodeRow.doFetch: with a cache entry
for the entity (in the cache scoped to the requested range) that is fresher
than 30 minutes and no forced refresh, exactly
ceil((now - lastFetchedAt) / 1h) + 1 hours are requested; in every other case
(no entry, forced refresh, or stale entry) the full rangeHours window is
requested. -/
theorem doFetchHours_sizing (now : Int) (cache : Option IncrementalCache)
    (uuid : String) (rangeHours : Int) (force : Bool) :
    (∀ cached, cacheLookup (scopedCache cache rangeHours) uuid = some cached →
        force = false → now - cached.fetchedAt < 30 * 60000 →
        doFetchHours now cache uuid rangeHours force =
          ⌈((now - cached.fetchedAt : Int) : ℚ) / (3600000 : ℚ)⌉ + 1) ∧
    ((∀ cached, cacheLookup (scopedCache cache rangeHours) uuid = some cached →
        force = true ∨ 30 * 60000 ≤ now - cached.fetchedAt) →
      doFetchHours now cache uuid rangeHours force = rangeHours) := by
  constructor
  · intro cached hl hf hfresh
    simp only [doFetchHours, hl]
    rw [if_pos ⟨hf, hfresh⟩, ceilDiv_3600000]
  · intro h
    cases hl : cacheLookup (scopedCache cache rangeHours) uuid with
    | none => simp [doFetchHours, hl]
    | some cached =>
      have hcond : ¬ (force = false ∧ now - cached.fetchedAt < 30 * 60000) := by
        rcases h cached hl with hf | hstale
        · rintro ⟨hff, _⟩; rw [hf] at hff; exact Bool.noConfusion hff
        · rintro ⟨_, hlt⟩; omega
      simp only [doFetchHours, hl]
      rw [if_neg hcond]

/-- C7 witness: a 10-minute-old cache entry for node u at range 24 without a
forced refresh requests ceil(10min / 1h) + 1 = 2 hours. -/
theorem doFetchHours_sizing_witness :
    doFetchHours 600000 sampleCache "u" 24 false =
      ⌈((600000 - sampleNodeCache.fetchedAt : Int) : ℚ) / (3600000 : ℚ)⌉ + 1 :=
  (doFetchHours_sizing 600000 sampleCache "u" 24 false).1 sampleNodeCache rfl rfl
    (by decide)

/-- Replacing the binding of a different key leaves a lookup unchanged
(the map side of `mapSet`). -/
theorem find?_map_replace (k' : String) (v : List Int) (k : String) (h : k' ≠ k) :
    ∀ (m : List (String × List Int)),
      (m.map (fun p => if p.1 == k' then (k', v) else p)).find? (fun p => p.1 == k) =
        m.find? (fun p => p.1 == k) := by
  intro m
  induction m with
  | nil => rfl
  | cons p ps ih =>
    simp only [List.map_cons]
    by_cases hp : (p.1 == k') = true
    · have hp1 : p.1 = k' := by simpa using hp
      have e1 : ((k', v).1 == k) = false := by simpa using h
      have e2 : (p.1 == k) = false := by simp [hp1, h]
      rw [if_pos hp, List.find?_cons, List.find?_cons]
      simp only [e1, e2]
      exact ih
    · rw [if_neg hp, List.find?_cons, List.find?_cons]
      cases hpk : (p.1 == k) with
      | true => rfl
      | false => exact ih

/-- `mapSet` at one key does not disturb the lookup of another key. -/
theorem mapFind_mapSet_ne (m : List (String × List Int)) (k' : String)
    (v : List Int) (k : String) (h : k' ≠ k) :
    mapFind (mapSet m k' v) k = mapFind m k := by
  unfold mapSet mapFind
  split
  · rw [find?_map_replace k' v k h m]
  · rw [List.find?_append]
    have e1 : ((k', v).1 == k) = false := by simpa using h
    have hsing : List.find? (fun p => p.1 == k) [(k', v)] = none := by
      rw [List.find?_cons]
      simp only [e1]
      rfl
    rw [hsing, Option.or_none]

/-- C8: a batch in which every fetched series for entity u has fewer than 2
samples (including the empty series of a failed per-entity fetch) leaves u's
cached sparkline series unchanged; entities not fetched at all are trivially
covered as well. -/
theorem sparkline_minSample_guard (prev results : List (String × List Int))
    (u : String) (h : ∀ p ∈ results, p.1 = u → p.2.length < 2) :
    mapFind (applyBatch prev results) u = mapFind prev u := by
  induction results generalizing prev with
  | nil => rfl
  | cons r rest ih =>
    have hrest : ∀ p ∈ rest, p.1 = u → p.2.length < 2 :=
      fun p hp => h p (List.mem_cons_of_mem _ hp)
    simp only [applyBatch, List.foldl_cons]
    by_cases hlen : 2 ≤ r.2.length
    · have hne : r.1 ≠ u := by
        intro contra
        have := h r (List.mem_cons_self _ _) contra
        omega
      rw [if_pos hlen]
      have := ih (mapSet prev r.1 r.2) hrest
      simp only [applyBatch] at this
      rw [this, mapFind_mapSet_ne _ _ _ _ hne]
    · rw [if_neg hlen]
      have := ih prev hrest
      simp only [applyBatch] at this
      rw [this]

/-- C8 witness: a 1-sample fetch for entity a (next to a 2-sample fetch for
entity b) leaves the 3-sample cached series of a untouched. -/
theorem sparkline_minSample_guard_witness :
    mapFind (applyBatch [("a", [1, 2, 3])] [("a", [7]), ("b", [4, 5])]) "a" =
      mapFind [("a", [1, 2, 3])] "a" :=
  sparkline_minSample_guard _ _ "a" (by decide)

/-- One `mergeRecords` loop equals first-occurrence dedup followed by the
cutoff filter, with the final seen set given by `recordSeen`. -/
theorem addRecords_spec (parse : String → Int) (cutoff : Int) :
    ∀ (l : List LoadRecord) (seen : List String) (merged : List LoadRecord),
      addRecords parse cutoff l seen merged =
        (recordSeen l seen,
         merged ++ (dedupByTime l seen).filter
            (fun r => decide (cutoff ≤ parse r.time))) := by
  intro l
  induction l with
  | nil => intro seen merged; simp [addRecords, recordSeen, dedupByTime]
  | cons r rs ih =>
    intro seen merged
    by_cases hs : r.time ∈ seen
    · simp [addRecords, recordSeen, dedupByTime, hs, ih]
    · by_cases hc : cutoff ≤ parse r.time
      · simp [addRecords, recordSeen, dedupByTime, List.filter_cons, hs, hc, ih]
      · simp [addRecords, recordSeen, dedupByTime, List.filter_cons, hs, hc, ih]

/-- Dedup distributes over append, threading the seen set. -/
theorem dedupByTime_append :
    ∀ (l1 l2 : List LoadRecord) (seen : List String),
      dedupByTime (l1 ++ l2) seen =
        dedupByTime l1 seen ++ dedupByTime l2 (recordSeen l1 seen) := by
  intro l1
  induction l1 with
  | nil => intro l2 seen; simp [dedupByTime, recordSeen]
  | cons r rs ih =>
    intro l2 seen
    by_cases hs : r.time ∈ seen <;> simp [dedupByTime, recordSeen, hs, ih]

/-- `mergeRecords` is dedup over new-then-old followed by the cutoff filter. -/
theorem mergeRecords_eq (parse : String → Int) (now : Int)
    (oldRecords newRecords : List LoadRecord) (rangeHours : Int) :
    mergeRecords parse now oldRecords newRecords rangeHours =
      (dedupByTime (newRecords ++ oldRecords) []).filter
        (fun r => decide (now - rangeHours * 3600000 ≤ parse r.time)) := by
  unfold mergeRecords
  dsimp only
  rw [addRecords_spec, addRecords_spec, dedupByTime_append, List.filter_append]
  simp

/-- Every deduplicated record comes from the input list. -/
theorem dedupByTime_subset :
    ∀ (l : List LoadRecord) (seen : List String) (r : LoadRecord),
      r ∈ dedupByTime l seen → r ∈ l := by
  intro l
  induction l with
  | nil => intro seen r hr; simp [dedupByTime] at hr
  | cons hd rs ih =>
    intro seen r hr
    by_cases hs : hd.time ∈ seen
    · rw [dedupByTime, if_pos hs] at hr
      exact List.mem_cons_of_mem _ (ih seen r hr)
    · rw [dedupByTime, if_neg hs] at hr
      rcases List.mem_cons.mp hr with rfl | h'
      · exact List.mem_cons_self _ _
      · exact List.mem_cons_of_mem _ (ih _ r h')

/-- Dedup yields pairwise-distinct timestamps, all of them fresh with respect
to the initial seen set. -/
theorem dedupByTime_nodup_fresh :
    ∀ (l : List LoadRecord) (seen : List String),
      ((dedupByTime l seen).map (fun r => r.time)).Nodup ∧
        ∀ r ∈ dedupByTime l seen, r.time ∉ seen := by
  intro l
  induction l with
  | nil => intro seen; simp [dedupByTime]
  | cons r rs ih =>
    intro seen
    by_cases hs : r.time ∈ seen
    · rw [dedupByTime, if_pos hs]
      exact ih seen
    · rw [dedupByTime, if_neg hs]
      constructor
      · rw [List.map_cons]
        refine List.nodup_cons.mpr ⟨?_, (ih _).1⟩
        intro hmem
        obtain ⟨r', hr', ht⟩ := List.mem_map.mp hmem
        have hfresh := (ih (r.time :: seen)).2 r' hr'
        exact hfresh (ht ▸ List.mem_cons_self _ _)
      · intro r' hr'
        rcases List.mem_cons.mp hr' with rfl | h'
        · exact hs
        · have hfresh := (ih (r.time :: seen)).2 r' h'
          exact fun hmem => hfresh (List.mem_cons_of_mem _ hmem)

/-- Membership in the accumulated seen set. -/
theorem recordSeen_mem :
    ∀ (l : List LoadRecord) (seen : List String) (t : String),
      t ∈ recordSeen l seen ↔ t ∈ seen ∨ ∃ r ∈ l, r.time = t := by
  intro l
  induction l with
  | nil => intro seen t; simp [recordSeen]
  | cons r rs ih =>
    intro seen t
    by_cases hs : r.time ∈ seen
    · rw [recordSeen, if_pos hs, ih]
      constructor
      · rintro (ht | ⟨r', hr', rfl⟩)
        · exact Or.inl ht
        · exact Or.inr ⟨r', List.mem_cons_of_mem _ hr', rfl⟩
      · rintro (ht | ⟨r', hr', rfl⟩)
        · exact Or.inl ht
        · rcases List.mem_cons.mp hr' with rfl | h'
          · exact Or.inl hs
          · exact Or.inr ⟨r', h', rfl⟩
    · rw [recordSeen, if_neg hs, ih]
      constructor
      · rintro (ht | ⟨r', hr', rfl⟩)
        · rcases List.mem_cons.mp ht with rfl | h'
          · exact Or.inr ⟨r, List.mem_cons_self _ _, rfl⟩
          · exact Or.inl h'
        · exact Or.inr ⟨r', List.mem_cons_of_mem _ hr', rfl⟩
      · rintro (ht | ⟨r', hr', rfl⟩)
        · exact Or.inl (List.mem_cons_of_mem _ ht)
        · rcases List.mem_cons.mp hr' with rfl | h'
          · exact Or.inl (List.mem_cons_self _ _)
          · exact Or.inr ⟨r', h', rfl⟩

/-- Every fresh input timestamp is represented in the dedup output. -/
theorem dedupByTime_covers :
    ∀ (l : List LoadRecord) (seen : List String) (r : LoadRecord),
      r ∈ l → r.time ∉ seen →
        ∃ r' ∈ dedupByTime l seen, r'.time = r.time := by
  intro l
  induction l with
  | nil => intro seen r hr; simp at hr
  | cons hd rs ih =>
    intro seen r hr hns
    by_cases hs : hd.time ∈ seen
    · rw [dedupByTime, if_pos hs]
      rcases List.mem_cons.mp hr with rfl | h'
      · exact absurd hs hns
      · exact ih seen r h' hns
    · rw [dedupByTime, if_neg hs]
      rcases List.mem_cons.mp hr with rfl | h'
      · exact ⟨r, List.mem_cons_self _ _, rfl⟩
      · by_cases ht : r.time = hd.time
        · exact ⟨hd, List.mem_cons_self _ _, ht.symm⟩
        · have hns' : r.time ∉ hd.time :: seen := by
            intro hmem
            rcases List.mem_cons.mp hmem with h1 | h1
            · exact ht h1
            · exact hns h1
          obtain ⟨r', h1, h2⟩ := ih (hd.time :: seen) r h' hns'
          exact ⟨r', List.mem_cons_of_mem _ h1, h2⟩

/-- C5: mergeRecords deduplicates by exact timestamp string (the result's
timestamps are pairwise distinct), keeps the record from newRecords on any
timestamp collision, discards exactly the records older than
now - rangeHours (every surviving timestamp is inside the window, and every
in-window input timestamp survives). -/
theorem mergeRecords_spec (parse : String → Int) (now : Int)
    (oldRecords newRecords : List LoadRecord) (rangeHours : Int) :
    ((mergeRecords parse now oldRecords newRecords rangeHours).map
        (fun r => r.time)).Nodup ∧
    (∀ r ∈ mergeRecords parse now oldRecords newRecords rangeHours,
        r.time ∈ newRecords.map (fun r => r.time) → r ∈ newRecords) ∧
    (∀ r ∈ mergeRecords parse now oldRecords newRecords rangeHours,
        now - rangeHours * 3600000 ≤ parse r.time) ∧
    (∀ r ∈ newRecords ++ oldRecords,
        now - rangeHours * 3600000 ≤ parse r.time →
        ∃ r' ∈ mergeRecords parse now oldRecords newRecords rangeHours,
          r'.time = r.time) := by
  rw [mergeRecords_eq]
  refine ⟨?_, ?_, ?_, ?_⟩
  · have hD := (dedupByTime_nodup_fresh (newRecords ++ oldRecords) []).1
    exact List.Nodup.sublist ((List.filter_sublist _).map _) hD
  · intro r hr htin
    have hrD : r ∈ dedupByTime (newRecords ++ oldRecords) [] :=
      List.mem_of_mem_filter hr
    rw [dedupByTime_append] at hrD
    rcases List.mem_append.mp hrD with h1 | h2
    · exact dedupByTime_subset _ _ r h1
    · have hfresh :=
        (dedupByTime_nodup_fresh oldRecords (recordSeen newRecords [])).2 r h2
      obtain ⟨r0, hr0, ht0⟩ := List.mem_map.mp htin
      have : r.time ∈ recordSeen newRecords [] :=
        (recordSeen_mem newRecords [] r.time).mpr (Or.inr ⟨r0, hr0, ht0⟩)
      exact absurd this hfresh
  · intro r hr
    have := List.of_mem_filter hr
    exact of_decide_eq_true this
  · intro r hr hc
    obtain ⟨r', h1, h2⟩ :=
      dedupByTime_covers (newRecords ++ oldRecords) [] r hr (by simp)
    refine ⟨r', List.mem_filter.mpr ⟨h1, ?_⟩, h2⟩
    exact decide_eq_true (by rw [h2]; exact hc)

/-- C5 witness: at the spec example (old = T1,T2; new = T2,T3; range 1h; now
= T3) the merged result has pairwise-distinct timestamps. -/
theorem mergeRecords_spec_witness :
    ((mergeRecords testParse 7200000 [⟨"T1", 10⟩, ⟨"T2", 20⟩]
        [⟨"T2", 99⟩, ⟨"T3", 30⟩] 1).map (fun r => r.time)).Nodup :=
  (mergeRecords_spec testParse 7200000 [⟨"T1", 10⟩, ⟨"T2", 20⟩]
    [⟨"T2", 99⟩, ⟨"T3", 30⟩] 1).1

/-- `statsEqual` is reflexive. -/
theorem statsEqual_refl (a : Option NodeStats) : statsEqual a a = true := by
  cases a with
  | none => rfl
  | some x => simp [statsEqual]

/-- Normalization does not depend on the current time string when the raw
push carries a non-empty `updated_at`. -/
theorem normalizeRawStats_nowIso (n1 n2 : String) (raw : RawStats) (s : String)
    (hs : raw.updated_at = some s) (hne : s ≠ "") :
    normalizeRawStats n1 raw = normalizeRawStats n2 raw := by
  simp [normalizeRawStats, strOr, hs, hne]

/-- Per-node reconciliation preserves the descriptive record, sets the status
from the online set, and leaves stats field-equal to the freshly normalized
record. -/
theorem reconcileNode_spec (nowIso : String) (online : List String)
    (data : List (String × RawStats)) (node : NodeWithStatus) :
    (reconcileNode nowIso online data node).1.toNodeData = node.toNodeData ∧
    (reconcileNode nowIso online data node).1.status =
      (if online.contains node.uuid then NodeStatus.online else NodeStatus.offline) ∧
    statsEqual (reconcileNode nowIso online data node).1.stats
      ((dataLookup data node.uuid).map (normalizeRawStats nowIso)) = true := by
  unfold reconcileNode
  dsimp only
  by_cases hc : online.contains node.uuid = true
  · simp only [if_pos hc]
    split
    next h => exact ⟨rfl, h.1, h.2⟩
    next _ => exact ⟨rfl, rfl, statsEqual_refl _⟩
  · simp only [if_neg hc]
    split
    next h => exact ⟨rfl, h.1, h.2⟩
    next _ => exact ⟨rfl, rfl, statsEqual_refl _⟩

/-- A node whose changed-flag is false was returned unchanged. -/
theorem reconcileNode_snd_false (nowIso : String) (online : List String)
    (data : List (String × RawStats)) (node : NodeWithStatus)
    (h : (reconcileNode nowIso online data node).2 = false) :
    reconcileNode nowIso online data node = (node, false) := by
  unfold reconcileNode at h ⊢
  dsimp only at h ⊢
  revert h
  by_cases hc : online.contains node.uuid = true
  · simp only [if_pos hc]
    split
    · intro _; rfl
    · intro h; exact absurd h (by simp)
  · simp only [if_neg hc]
    split
    · intro _; rfl
    · intro h; exact absurd h (by simp)

/-- Every node of the published snapshot is the per-node reconciliation of
some previously-registered node. -/
theorem handleWebSocketData_mem (nowIso : String) (prev : List NodeWithStatus)
    (online : List String) (data : List (String × RawStats))
    (node' : NodeWithStatus)
    (h : node' ∈ (handleWebSocketData nowIso prev online data).1) :
    ∃ node ∈ prev, (reconcileNode nowIso online data node).1 = node' := by
  unfold handleWebSocketData at h
  dsimp only at h
  by_cases hch :
      (prev.map (reconcileNode nowIso online data)).any (fun r => r.2) = true
  · rw [if_pos hch, List.map_map] at h
    obtain ⟨node, hmem, heq⟩ := List.mem_map.mp h
    exact ⟨node, hmem, heq⟩
  · rw [if_neg hch] at h
    refine ⟨node', h, ?_⟩
    have hf : (prev.map (reconcileNode nowIso online data)).any (fun r => r.2) = false := by
      simpa using hch
    have hsnd : (reconcileNode nowIso online data node').2 = false := by
      have := List.any_eq_false.mp hf (reconcileNode nowIso online data node')
        (List.mem_map_of_mem _ h)
      simpa using this
    rw [reconcileNode_snd_false nowIso online data node' hsnd]

/-- Looked-up payload records come from the data list, so the normalized
stats are independent of the clock when every record has a usable
`updated_at`. -/
theorem dataLookup_updated (data : List (String × RawStats))
    (H : ∀ p ∈ data, ∃ s, p.2.updated_at = some s ∧ s ≠ "")
    (uuid : String) (n1 n2 : String) :
    (dataLookup data uuid).map (normalizeRawStats n1) =
      (dataLookup data uuid).map (normalizeRawStats n2) := by
  cases hl : dataLookup data uuid with
  | none => rfl
  | some raw =>
    obtain ⟨p, hp, hpr⟩ : ∃ p ∈ data, p.2 = raw := by
      unfold dataLookup at hl
      cases hf : data.find? (fun p => p.1 == uuid) with
      | none => rw [hf] at hl; simp at hl
      | some p =>
        rw [hf] at hl
        simp at hl
        exact ⟨p, List.mem_of_find?_eq_some hf, hl⟩
    obtain ⟨s, hs, hne⟩ := H p hp
    have : normalizeRawStats n1 raw = normalizeRawStats n2 raw :=
      normalizeRawStats_nowIso n1 n2 raw s (hpr ▸ hs) hne
    simp [this]

/-- Re-reconciling an already-reconciled node with the same payload (at a
possibly different clock value) reuses the node and reports no change,
provided every published record carries a non-empty `updated_at`. -/
theorem reconcileNode_stable (online : List String)
    (data : List (String × RawStats))
    (H : ∀ p ∈ data, ∃ s, p.2.updated_at = some s ∧ s ≠ "")
    (n1 n2 : String) (node : NodeWithStatus) :
    reconcileNode n2 online data (reconcileNode n1 online data node).1 =
      ((reconcileNode n1 online data node).1, false) := by
  obtain ⟨hdata, hstatus, hstats⟩ := reconcileNode_spec n1 online data node
  set node' := (reconcileNode n1 online data node).1 with hnode'
  have huuid : node'.uuid = node.uuid := congrArg NodeData.uuid hdata
  have hcond : node'.status =
      (if online.contains node'.uuid then NodeStatus.online else NodeStatus.offline) ∧
      statsEqual node'.stats
        ((dataLookup data node'.uuid).map (normalizeRawStats n2)) = true := by
    constructor
    · rw [huuid]; exact hstatus
    · rw [huuid, ← dataLookup_updated data H node.uuid n1 n2]; exact hstats
  unfold reconcileNode
  dsimp only
  rw [if_pos hcond]

/-- C3, amended: applying an identical payload twice yields exactly the
snapshot of the first application with the changed flag false (no new
snapshot published), provided every status record in the payload's data map
carries a non-empty `updated_at` value — as every payload produced by
fetchLatestStatus/adaptNodeStatus does.  Without such a value the handler
stamps the current time into the record at each tick, which breaks
idempotence when the clock advances. -/
theorem reconcile_idempotent (n1 n2 : String) (prev : List NodeWithStatus)
    (online : List String) (data : List (String × RawStats))
    (H : ∀ p ∈ data, ∃ s, p.2.updated_at = some s ∧ s ≠ "") :
    handleWebSocketData n2 (handleWebSocketData n1 prev online data).1 online data =
      ((handleWebSocketData n1 prev online data).1, false) := by
  set snap1 := (handleWebSocketData n1 prev online data).1 with hsnap
  have key : ∀ node' ∈ snap1,
      reconcileNode n2 online data node' = (node', false) := by
    intro node' h
    obtain ⟨node, hmem, heq⟩ := handleWebSocketData_mem n1 prev online data node' h
    rw [← heq]
    exact reconcileNode_stable online data H n1 n2 node
  have hmapeq : snap1.map (reconcileNode n2 online data) =
      snap1.map (fun node => (node, false)) := List.map_eq_map_iff.mpr key
  unfold handleWebSocketData
  dsimp only
  rw [hmapeq]
  simp

/-- C3 witness: a payload whose record carries updated_at is idempotent
across two ticks with different clock strings. -/
theorem reconcile_idempotent_witness :
    handleWebSocketData "t2"
        (handleWebSocketData "t1" [sampleNode] ["a"] goodData).1 ["a"] goodData =
      ((handleWebSocketData "t1" [sampleNode] ["a"] goodData).1, false) :=
  reconcile_idempotent "t1" "t2" [sampleNode] ["a"] goodData (by
    intro p hp
    simp only [goodData, List.mem_singleton] at hp
    subst hp
    exact ⟨"2024-01-01T00:00:00Z", rfl, by decide⟩)

/-- C3, counterexample: with a record lacking `updated_at` (the spec's own
example data = one record with only cpu), the second application of the
identical payload at a later clock publishes a new snapshot: the changed flag
is true and the snapshot differs from tick 1's. -/
theorem reconcile_idempotent_claim_false :
    (handleWebSocketData "t2"
        (handleWebSocketData "t1" [sampleNode] ["a"] cpuOnlyData).1
        ["a"] cpuOnlyData).2 = true ∧
    (handleWebSocketData "t2"
        (handleWebSocketData "t1" [sampleNode] ["a"] cpuOnlyData).1
        ["a"] cpuOnlyData).1 ≠
      (handleWebSocketData "t1" [sampleNode] ["a"] cpuOnlyData).1 := by
  decide

/-- C4: in the published snapshot, a node's status is online exactly when its
uuid is in the payload's online set — an id absent from the online set is
offline regardless of any stale or fresh status record. -/
theorem reconcile_status_authoritative (nowIso : String)
    (prev : List NodeWithStatus) (online : List String)
    (data : List (String × RawStats)) :
    ∀ node' ∈ (handleWebSocketData nowIso prev online data).1,
      (node'.status = NodeStatus.online ↔ node'.uuid ∈ online) := by
  intro node' h
  obtain ⟨node, hmem, heq⟩ := handleWebSocketData_mem nowIso prev online data node' h
  obtain ⟨hdata, hstatus, _⟩ := reconcileNode_spec nowIso online data node
  have huuid : (reconcileNode nowIso online data node).1.uuid = node.uuid :=
    congrArg NodeData.uuid hdata
  rw [← heq, hstatus, huuid]
  by_cases hc : online.contains node.uuid = true
  · rw [if_pos hc]
    simp [List.elem_iff.mp hc]
  · rw [if_neg hc]
    have hnot : node.uuid ∉ online := fun hmem' => hc (List.elem_iff.mpr hmem')
    simp [hnot]

/-- C4 witness: with an empty data map and online = set containing a, node a
is online in the published snapshot exactly because a is in the online set. -/
theorem reconcile_status_authoritative_witness :
    (wsSampleOnline.status = NodeStatus.online ↔ wsSampleOnline.uuid ∈ ["a"]) :=
  reconcile_status_authoritative "t1" [sampleNode] ["a"] [] wsSampleOnline (by decide)

/-- Field equality of compared stats gives equality of every compared field
(every numeric field plus updated_at; message is not compared). -/
theorem statsEqual_fields {x y : NodeStats}
    (h : statsEqual (some x) (some y) = true) :
    x.cpu.usage = y.cpu.usage ∧ x.ram.used = y.ram.used ∧
    x.ram.total = y.ram.total ∧ x.swap.used = y.swap.used ∧
    x.swap.total = y.swap.total ∧ x.disk.used = y.disk.used ∧
    x.disk.total = y.disk.total ∧ x.network.up = y.network.up ∧
    x.network.down = y.network.down ∧ x.network.totalUp = y.network.totalUp ∧
    x.network.totalDown = y.network.totalDown ∧ x.load.load1 = y.load.load1 ∧
    x.load.load5 = y.load.load5 ∧ x.load.load15 = y.load.load15 ∧
    x.uptime = y.uptime ∧ x.process = y.process ∧
    x.connections.tcp = y.connections.tcp ∧
    x.connections.udp = y.connections.udp ∧
    x.updated_at = y.updated_at := by
  simp [statsEqual] at h
  tauto

/-- C6: every numeric field missing from a raw record defaults to 0 — in
adaptNodeStatus each absent flat numeric field yields 0 in the nested
NodeStats, and end-to-end through the reconciler, the StatusRecord delivered
in the published snapshot for a node matched to a raw record has 0 in every
numeric field the raw record lacks (in particular totalUp), so no undefined
or NaN numeric value flows downstream. -/
theorem statusRecord_defaulting :
    (∀ (nowIso : String) (status : RPC2NodeStatus),
        (status.cpu = none → (adaptNodeStatus nowIso status).cpu.usage = 0) ∧
        (status.ram_total = none → (adaptNodeStatus nowIso status).ram.total = 0) ∧
        (status.ram = none → (adaptNodeStatus nowIso status).ram.used = 0) ∧
        (status.swap_total = none → (adaptNodeStatus nowIso status).swap.total = 0) ∧
        (status.swap = none → (adaptNodeStatus nowIso status).swap.used = 0) ∧
        (status.disk_total = none → (adaptNodeStatus nowIso status).disk.total = 0) ∧
        (status.disk = none → (adaptNodeStatus nowIso status).disk.used = 0) ∧
        (status.net_in = none → (adaptNodeStatus nowIso status).network.up = 0) ∧
        (status.net_out = none → (adaptNodeStatus nowIso status).network.down = 0) ∧
        (status.net_total_up = none →
          (adaptNodeStatus nowIso status).network.totalUp = 0) ∧
        (status.net_total_down = none →
          (adaptNodeStatus nowIso status).network.totalDown = 0) ∧
        (status.load = none → (adaptNodeStatus nowIso status).load.load1 = 0) ∧
        (status.load5 = none → (adaptNodeStatus nowIso status).load.load5 = 0) ∧
        (status.load15 = none → (adaptNodeStatus nowIso status).load.load15 = 0) ∧
        (status.uptime = none → (adaptNodeStatus nowIso status).uptime = 0) ∧
        (status.process = none → (adaptNodeStatus nowIso status).process = 0) ∧
        (status.connections = none →
          (adaptNodeStatus nowIso status).connections.tcp = 0) ∧
        (status.connections_udp = none →
          (adaptNodeStatus nowIso status).connections.udp = 0)) ∧
    (∀ (nowIso : String) (prev : List NodeWithStatus) (online : List String)
        (data : List (String × RawStats)) (node' : NodeWithStatus)
        (raw : RawStats) (s : NodeStats),
        node' ∈ (handleWebSocketData nowIso prev online data).1 →
        dataLookup data node'.uuid = some raw →
        node'.stats = some s →
        (raw.cpu_usage = none → s.cpu.usage = 0) ∧
        (raw.ram_total = none → s.ram.total = 0) ∧
        (raw.ram_used = none → s.ram.used = 0) ∧
        (raw.swap_total = none → s.swap.total = 0) ∧
        (raw.swap_used = none → s.swap.used = 0) ∧
        (raw.disk_total = none → s.disk.total = 0) ∧
        (raw.disk_used = none → s.disk.used = 0) ∧
        (raw.net_up = none → s.network.up = 0) ∧
        (raw.net_down = none → s.network.down = 0) ∧
        (raw.net_totalUp = none → s.network.totalUp = 0) ∧
        (raw.net_totalDown = none → s.network.totalDown = 0) ∧
        (raw.load1 = none → s.load.load1 = 0) ∧
        (raw.load5 = none → s.load.load5 = 0) ∧
        (raw.load15 = none → s.load.load15 = 0) ∧
        (raw.uptime = none → s.uptime = 0) ∧
        (raw.process = none → s.process = 0) ∧
        (raw.conn_tcp = none → s.connections.tcp = 0) ∧
        (raw.conn_udp = none → s.connections.udp = 0)) := by
  constructor
  · intro nowIso status
    refine ⟨?_, ?_, ?_, ?_, ?_, ?_, ?_, ?_, ?_, ?_, ?_, ?_, ?_, ?_, ?_, ?_, ?_, ?_⟩ <;>
      (intro h; simp [adaptNodeStatus, h])
  · intro nowIso prev online data node' raw s hmem hlook hstats
    obtain ⟨node, hprev, heq⟩ := handleWebSocketData_mem nowIso prev online data node' hmem
    obtain ⟨hdata, _, hstatsEq⟩ := reconcileNode_spec nowIso online data node
    have huuid : node.uuid = node'.uuid := by
      rw [← heq]
      exact (congrArg NodeData.uuid hdata).symm
    rw [heq, huuid, hlook] at hstatsEq
    rw [hstats] at hstatsEq
    obtain ⟨e1, e2, e3, e4, e5, e6, e7, e8, e9, e10, e11, e12, e13, e14, e15, e16,
      e17, e18, e19⟩ := statsEqual_fields hstatsEq
    refine ⟨?_, ?_, ?_, ?_, ?_, ?_, ?_, ?_, ?_, ?_, ?_, ?_, ?_, ?_, ?_, ?_, ?_, ?_⟩ <;>
      (intro h;
       simp [e1, e2, e3, e4, e5, e6, e7, e8, e9, e10, e11, e12, e13, e14, e15, e16,
         e17, e18, normalizeRawStats, h])

/-- C6 witness: adaptNodeStatus on a payload with no numeric fields at all
yields 0 for the cpu usage and the cumulative upload counter. -/
theorem statusRecord_defaulting_witness :
    (adaptNodeStatus "t" { online := true }).cpu.usage = 0 ∧
      (adaptNodeStatus "t" { online := true }).network.totalUp = 0 :=
  ⟨(statusRecord_defaulting.1 "t" { online := true }).1 rfl,
   (statusRecord_defaulting.1 "t" { online := true }).2.2.2.2.2.2.2.2.2.1 rfl⟩

end Commander
